import Mathlib

/-!
Verification development for the stocktracker repository's technical-indicator
and statistical-prediction engines (`src/lib/prediction.ts` and the indicator
library).  JavaScript numbers are modelled as `Option ℚ`: `some q` is a finite
value, `none` is the NaN sentinel (reading an array out of bounds yields
`undefined`, and any arithmetic on it yields NaN, which `none` also models).
Division by zero is modelled as `none`; on every code path examined by the
theorems below the JavaScript result at a zero denominator is NaN as well
(`0/0`), so the model agrees with the source there.
-/

namespace StockTracker

set_option maxHeartbeats 1000000

/-- JavaScript number: `some q` a finite value, `none` the NaN sentinel. -/
abbrev JNum := Option ℚ

/-- Lift a binary rational operation to JS numbers; NaN propagates. -/
def jbin (f : ℚ → ℚ → ℚ) : JNum → JNum → JNum
  | some a, some b => some (f a b)
  | _, _ => none

def jadd : JNum → JNum → JNum := jbin (· + ·)

def jsub : JNum → JNum → JNum := jbin (· - ·)

def jmul : JNum → JNum → JNum := jbin (· * ·)

/-- JS division; a zero denominator is modelled as the NaN sentinel. -/
def jdiv : JNum → JNum → JNum
  | some a, some b => if b = 0 then none else some (a / b)
  | _, _ => none

/-- JS `<`: any comparison involving NaN is false. -/
def jlt : JNum → JNum → Bool
  | some a, some b => decide (a < b)
  | _, _ => false

/-- JS `>`: any comparison involving NaN is false. -/
def jgt (x y : JNum) : Bool := jlt y x

/-- JS `Math.min`; NaN propagates. -/
def jmin : JNum → JNum → JNum := jbin min

/-- JS `Math.max`; NaN propagates. -/
def jmax : JNum → JNum → JNum := jbin max

/-- JS `Math.abs`; NaN propagates. -/
def jabs : JNum → JNum
  | some a => some |a|
  | none => none

/-- JS `x || d` on numbers: `d` when `x` is `0` or NaN, else `x`. -/
def jorDefault : JNum → JNum → JNum
  | some a, d => if a = 0 then d else some a
  | none, d => d

/-- JS array read `xs[i]`: out of bounds gives `undefined`, modelled as NaN
(in the source every such read flows into arithmetic, where `undefined`
becomes NaN). -/
def jget (xs : List JNum) (i : ℕ) : JNum := xs.getD i none

/-- JS `reduce((acc, v) => acc + v, 0)`. -/
def jsum (xs : List JNum) : JNum := xs.foldl jadd (some 0)

/-- One daily price bar (`StockTimeSeriesData`); `open` is a Lean keyword so
that field is `openP`. -/
structure Bar where
  date : String
  openP : ℚ
  high : ℚ
  low : ℚ
  close : ℚ
  volume : ℚ
deriving DecidableEq

/-! ## Forecast engine: `src/lib/prediction.ts` -/

namespace Pred

/-- `calculateSMA` from prediction.ts: pushes one value per index
`i = window-1 .. data.length-1`; NO front padding, so the output is shorter
than the input (empty when the input is shorter than the window). -/
def calculateSMA (data : List JNum) (window : ℕ) : List JNum :=
  ((List.range data.length).drop (window - 1)).map (fun i =>
    jdiv (jsum ((data.drop (i + 1 - window)).take window)) (some window))

/-- Running sums accumulated by `linearRegression`. -/
structure RegSums where
  sumX : JNum
  sumY : JNum
  sumXY : JNum
  sumXX : JNum
deriving DecidableEq

/-- Body of `linearRegression`'s accumulation loop. -/
def regStep (xValues yValues : List JNum) (s : RegSums) (i : ℕ) : RegSums :=
  let x := jget xValues i
  let y := jget yValues i
  ⟨jadd s.sumX x, jadd s.sumY y, jadd s.sumXY (jmul x y), jadd s.sumXX (jmul x x)⟩

/-- `linearRegression(xValues, yValues, predict)` from prediction.ts. -/
def linearRegression (xValues yValues : List JNum) (predict : JNum) : JNum :=
  let n : ℕ := xValues.length
  let s := (List.range n).foldl (regStep xValues yValues) ⟨some 0, some 0, some 0, some 0⟩
  let slope := jdiv (jsub (jmul (some n) s.sumXY) (jmul s.sumX s.sumY))
                    (jsub (jmul (some n) s.sumXX) (jmul s.sumX s.sumX))
  let intercept := jdiv (jsub s.sumY (jmul slope s.sumX)) (some n)
  jadd (jmul slope predict) intercept

/-- The differenced series built at the top of `arimaInspiredPrediction`:
`data[i] - data[i-1]` for `i = 1 .. data.length-1`. -/
def diffSeries (data : List JNum) : List JNum :=
  ((List.range data.length).drop 1).map (fun i => jsub (jget data i) (jget data (i - 1)))

/-- `xValues = Array.from({length: 5}, (_, j) => j + 1)` (AR window 5). -/
def xValuesAR : List JNum := (List.range 5).map (fun (j : ℕ) => some ((j : ℚ) + 1))

/-- Mutable state of `arimaInspiredPrediction`'s loop.  The source mutates
the CALLER's `data` array in place (`data.push(nextVal)`), so the final
`data` is part of the state and is handed back to the caller. -/
structure ArimaState where
  data : List JNum
  differenced : List JNum
  predictions : List JNum
deriving DecidableEq

/-- The next predicted difference: regression of the last 5 differences
against positions 1..5 evaluated at 6 (faithful for series of length ≥ 5,
the only case reachable under the ≥ 30 bar precondition). -/
def nextDiffOf (s : ArimaState) : JNum :=
  linearRegression xValuesAR (s.differenced.drop (s.differenced.length - 5)) (some 6)

/-- One iteration of the loop in `arimaInspiredPrediction`.  Note the source
reads `data[data.length - 1 + i]` with the CURRENT (already grown) length,
which is out of bounds for every `i ≥ 1`. -/
def arimaStep (s : ArimaState) (i : ℕ) : ArimaState :=
  let nextDiff := nextDiffOf s
  let nextVal := jadd (jget s.data (s.data.length - 1 + i)) nextDiff
  ⟨s.data ++ [nextVal], s.differenced ++ [nextDiff], s.predictions ++ [nextVal]⟩

/-- `arimaInspiredPrediction(data, daysToPredict)` as a state transformer;
`.predictions` is the returned array, `.data` the mutated caller array. -/
def arimaRun (data : List JNum) (daysToPredict : ℕ) : ArimaState :=
  (List.range daysToPredict).foldl arimaStep ⟨data, diffSeries data, []⟩

/-- The value pushed by the FIRST loop iteration of
`arimaInspiredPrediction` on `data` (the only in-bounds read:
`data[data.length - 1 + 0]` plus the first predicted difference). -/
def firstPush (data : List JNum) : JNum :=
  jadd (jget data (data.length - 1)) (nextDiffOf ⟨data, diffSeries data, []⟩)

/-- Total order used to model `sort((a, b) => a - b)`.  On NaN the comparator
returns NaN and the engine order is implementation-defined; the model places
NaN first.  No theorem below depends on where the NaN entries land. -/
def jleB : JNum → JNum → Bool
  | none, _ => true
  | some _, none => false
  | some a, some b => decide (a ≤ b)

def sortAsc (data : List JNum) : List JNum :=
  data.insertionSort (fun a b => jleB a b = true)

structure SupRes where
  support : JNum
  resistance : JNum
deriving DecidableEq

/-- `findSupportResistance`: `Math.floor(n*0.25) = n/4` and
`Math.floor(n*0.75) = 3*n/4` exactly (0.25 and 0.75 are exact binary
floats and the products stay exact for any realistic length). -/
def findSupportResistance (data : List JNum) : SupRes :=
  let sorted := sortAsc data
  ⟨jget sorted (data.length / 4), jget sorted (3 * data.length / 4)⟩

inductive Trend where
  | bullish
  | bearish
  | neutral
deriving DecidableEq

/-- `determineTrend`: look at the last 10 entries of the series it is GIVEN
(`slice(-10)`), compare first and last via a percent change. -/
def determineTrend (data : List JNum) : Trend :=
  let recent := data.drop (data.length - 10)
  let startPrice := jget recent 0
  let endPrice := jget recent (recent.length - 1)
  let percentChange := jmul (jdiv (jsub endPrice startPrice) startPrice) (some 100)
  if jgt percentChange (some 3) then .bullish
  else if jlt percentChange (some (-3)) then .bearish
  else .neutral

/-- `calculateConfidence(actual, predicted)`; `0.2` is exact in binary
floating point, `Math.pow(x, 2)` is modelled as `x * x`. -/
def calculateConfidence (actual predicted : List JNum) : JNum :=
  if predicted.length = 0 ∨ actual.length < 10 then some (1/2)
  else
    let sumSq := (List.range predicted.length).foldl (fun sum i =>
      let e := jsub (jget predicted i) (jget actual i)
      jadd sum (jmul e e)) (some 0)
    let mse := jdiv sumSq (some predicted.length)
    let last := jget actual (actual.length - 1)
    let maxMSE := jmul (jmul last (some (1/5))) (jmul last (some (1/5)))
    jmax (some 0) (jmin (some 1) (jsub (some 1) (jdiv mse maxMSE)))

/-- `xValues = Array.from({length: 20}, (_, j) => j + 1)` (training window). -/
def xValuesTrain : List JNum := (List.range 20).map (fun (j : ℕ) => some ((j : ℚ) + 1))

/-- The back-fit loop of `predictStockPrices` (runs BEFORE the forward
forecasts, so it sees the original closes): for `i = 20 .. n-1`, regress
`closePrices.slice(i-20, i)` against 1..20 and evaluate at 21. -/
def backfitValues (closePrices : List JNum) : List JNum :=
  ((List.range closePrices.length).drop 20).map (fun i =>
    linearRegression xValuesTrain ((closePrices.drop (i - 20)).take 20) (some 21))

structure PredictionResult where
  dates : List String
  actual : List JNum
  predicted : List JNum
  nextDayPrediction : JNum
  nextWeekPrediction : JNum
  confidence : JNum
  trend : Trend
  supportLevel : JNum
  resistanceLevel : JNum
deriving DecidableEq

def closesOf (bars : List Bar) : List JNum := bars.map (fun b => some b.close)

/-- Body of `predictStockPrices` after the length check.  The source also
computes `sma20`, `ema12`, `ema26`, `rsi` and `macd` locals; they are dead
(never read again, cannot throw) and are omitted.  Everything else follows
the source order; in particular both `arimaInspiredPrediction` calls operate
on the SAME `closePrices` array, which the first call has already extended,
and `support`/`resistance`, `trend`, the `actual` result field and the
confidence inputs all read the mutated array. -/
def predictOk (bars : List Bar) : PredictionResult :=
  let closePrices0 := closesOf bars
  let dates := bars.map Bar.date
  let predictedValues := List.replicate 20 (none : JNum) ++ backfitValues closePrices0
  let run1 := arimaRun closePrices0 1
  let nextDayPrediction := jget run1.predictions 0
  let run7 := arimaRun run1.data 7
  let nextWeekPrediction := jget run7.predictions 6
  let closePrices2 := run7.data
  let sr := findSupportResistance closePrices2
  let trend := determineTrend closePrices2
  let nonNullPredicted := predictedValues.filter (fun p => p ≠ none)
  let actual := closePrices2.drop (closePrices2.length - nonNullPredicted.length)
  let confidence := calculateConfidence actual nonNullPredicted
  ⟨dates, closePrices2, predictedValues, nextDayPrediction, nextWeekPrediction,
   confidence, trend, sr.support, sr.resistance⟩

/-- The working close array after BOTH forecast calls: the caller's
`closePrices` as mutated by `arimaInspiredPrediction(closePrices, 1)`
followed by `arimaInspiredPrediction(closePrices, 7)`. -/
def closes2 (bars : List Bar) : List JNum :=
  (arimaRun (arimaRun (closesOf bars) 1).data 7).data

/-- The `predictedValues` array after front padding with nulls. -/
def paddedBackfit (bars : List Bar) : List JNum :=
  List.replicate 20 (none : JNum) ++ backfitValues (closesOf bars)

/-- `nonNullPredicted = predictedValues.filter(p => p !== null)`. -/
def nonNullOf (bars : List Bar) : List JNum :=
  (paddedBackfit bars).filter (fun p => p ≠ none)

inductive PredictionError where
  | insufficientData
deriving DecidableEq

/-- `predictStockPrices`: throws (`Except.error`) iff fewer than 30 bars. -/
def predictStockPrices (stockData : List Bar) : Except PredictionError PredictionResult :=
  if stockData.length < 30 then .error .insufficientData
  else .ok (predictOk stockData)

end Pred

/-! ## Indicator engine (`calculateSMA`, `calculateRSI`, `calculateADX`,
`calculateParabolicSAR`, ... from the technical-indicator library) -/

namespace Ind

/-- Indicator-engine `calculateSMA`: index-aligned with the input; `NaN`
before the warm-up, else the sum of the trailing `period` reads divided by
`period` (the source's inner loop `sum += data[i - j]` for `j < period`). -/
def calculateSMA (data : List JNum) (period : ℕ) : List JNum :=
  (List.range data.length).map (fun i =>
    if i + 1 < period then none
    else jdiv ((List.range period).foldl (fun sum j => jadd sum (jget data (i - j))) (some 0))
              (some period))

/-- Day-over-day gains (`change > 0 ? change : 0`); the source fills `gains`
and `losses` in one loop over `i = 1 .. data.length-1`, split here into two
index-aligned maps. -/
def gainsOf (data : List JNum) : List JNum :=
  ((List.range data.length).drop 1).map (fun i =>
    let change := jsub (jget data i) (jget data (i - 1))
    if jgt change (some 0) then change else some 0)

/-- Day-over-day losses (`change < 0 ? Math.abs(change) : 0`). -/
def lossesOf (data : List JNum) : List JNum :=
  ((List.range data.length).drop 1).map (fun i =>
    let change := jsub (jget data i) (jget data (i - 1))
    if jlt change (some 0) then jabs change else some 0)

/-- Wilder smoothing step `((avg * (period-1)) + x) / period`. -/
def wilderNext (period : ℕ) (avg x : JNum) : JNum :=
  jdiv (jadd (jmul avg (some ((period : ℚ) - 1))) x) (some period)

/-- RSI value `100 - 100/(1 + avgGain/(avgLoss || 0.001))`; the average-loss
denominator is epsilon-guarded (`0.001`, modelled as `1/1000`). -/
def rsiValue (avgGain avgLoss : JNum) : JNum :=
  jsub (some 100) (jdiv (some 100)
    (jadd (some 1) (jdiv avgGain (jorDefault avgLoss (some (1/1000))))))

/-- Indicator-engine `calculateRSI`: `period` NaNs, a first value from the
simple averages of the first `period` gains/losses, then Wilder smoothing
carried by a fold over `i = period+1 .. data.length-1`. -/
def calculateRSI (data : List JNum) (period : ℕ) : List JNum :=
  let gains := gainsOf data
  let losses := lossesOf data
  let avgGain0 := jdiv (jsum (gains.take period)) (some period)
  let avgLoss0 := jdiv (jsum (losses.take period)) (some period)
  let rest := (((List.range data.length).drop (period + 1)).foldl
    (fun (acc : List JNum × JNum × JNum) i =>
      let ag := wilderNext period acc.2.1 (jget gains (i - 1))
      let al := wilderNext period acc.2.2 (jget losses (i - 1))
      (acc.1 ++ [rsiValue ag al], ag, al))
    ([], avgGain0, avgLoss0)).1
  List.replicate period none ++ [rsiValue avgGain0 avgLoss0] ++ rest

/-- True Range per bar (`max(high-low, |high-prevClose|, |low-prevClose|)`). -/
def trOf (highs lows closes : List JNum) : List JNum :=
  ((List.range closes.length).drop 1).map (fun i =>
    jmax (jmax (jsub (jget highs i) (jget lows i))
               (jabs (jsub (jget highs i) (jget closes (i - 1)))))
         (jabs (jsub (jget lows i) (jget closes (i - 1)))))

/-- Positive directional movement. -/
def plusDMof (highs lows closes : List JNum) : List JNum :=
  ((List.range closes.length).drop 1).map (fun i =>
    let upMove := jsub (jget highs i) (jget highs (i - 1))
    let downMove := jsub (jget lows (i - 1)) (jget lows i)
    if jgt upMove downMove && jgt upMove (some 0) then upMove else some 0)

/-- Negative directional movement. -/
def minusDMof (highs lows closes : List JNum) : List JNum :=
  ((List.range closes.length).drop 1).map (fun i =>
    let upMove := jsub (jget highs i) (jget highs (i - 1))
    let downMove := jsub (jget lows (i - 1)) (jget lows i)
    if jgt downMove upMove && jgt downMove (some 0) then downMove else some 0)

/-- `calculateSmoothedAverage`: simple mean of the first `period` values,
then Wilder smoothing of each later value. -/
def calculateSmoothedAverage (data : List JNum) (period : ℕ) : List JNum :=
  ((List.range data.length).drop period).foldl (fun res i =>
    res ++ [wilderNext period (jget res (res.length - 1)) (jget data i)])
    [jdiv (jsum (data.take period)) (some period)]

/-- `+DI = (smoothedPlusDM / smoothedTR) * 100`.  The denominator is the raw
smoothed true range: there is NO epsilon guard, so a flat series divides by
zero (NaN). -/
def plusDIof (highs lows closes : List JNum) (period : ℕ) : List JNum :=
  let str := calculateSmoothedAverage (trOf highs lows closes) period
  let spd := calculateSmoothedAverage (plusDMof highs lows closes) period
  (List.range str.length).map (fun i => jmul (jdiv (jget spd i) (jget str i)) (some 100))

/-- `-DI = (smoothedMinusDM / smoothedTR) * 100`, likewise unguarded. -/
def minusDIof (highs lows closes : List JNum) (period : ℕ) : List JNum :=
  let str := calculateSmoothedAverage (trOf highs lows closes) period
  let smd := calculateSmoothedAverage (minusDMof highs lows closes) period
  (List.range str.length).map (fun i => jmul (jdiv (jget smd i) (jget str i)) (some 100))

/-- `DX = (|+DI - -DI| / (+DI + -DI)) * 100`, also unguarded. -/
def dxOf (highs lows closes : List JNum) (period : ℕ) : List JNum :=
  let pdi := plusDIof highs lows closes period
  let mdi := minusDIof highs lows closes period
  (List.range pdi.length).map (fun i =>
    jmul (jdiv (jabs (jsub (jget pdi i) (jget mdi i))) (jadd (jget pdi i) (jget mdi i)))
         (some 100))

/-- Indicator-engine `calculateADX`: `2*period - 1` NaNs, a first mean of
`dx.slice(0, period)`, then Wilder smoothing over the remaining DX values. -/
def calculateADX (highs lows closes : List JNum) (period : ℕ) : List JNum :=
  let dx := dxOf highs lows closes period
  let adx0 := jdiv (jsum (dx.take period)) (some period)
  let rest := (((List.range dx.length).drop period).foldl
    (fun (acc : List JNum × JNum) i =>
      let a := wilderNext period acc.2 (jget dx i)
      (acc.1 ++ [a], a)) ([], adx0)).1
  List.replicate (2 * period - 1) none ++ [adx0] ++ rest

/-- Loop state of `calculateParabolicSAR`: trend flag, extreme point, the
`sar` variable as carried across iterations, and the acceleration factor
(always a real number: it only ever takes values built from `initialAF` and
`maxAF` by `+` and `min`). -/
structure SarState where
  isUptrend : Bool
  ep : JNum
  sar : JNum
  af : ℚ
deriving DecidableEq

/-- Initial SAR state: trend from the first close-to-close change, extreme
point and SAR seeded from the first bar. -/
def sarInit (highs lows closes : List JNum) (initialAF : ℚ) : SarState :=
  let isUp := jgt (jget closes 1) (jget closes 0)
  ⟨isUp, if isUp then jget highs 0 else jget lows 0,
        if isUp then jget lows 0 else jget highs 0, initialAF⟩

/-- The SAR value pushed at step `i`: `sar + af*(ep - sar)`, clamped to the
prior one or two bars' lows (uptrend) or highs (downtrend). -/
def sarComputed (highs lows : List JNum) (s : SarState) (i : ℕ) : JNum :=
  let sar1 := jadd s.sar (jmul (some s.af) (jsub s.ep s.sar))
  if s.isUptrend then
    let a := jmin sar1 (jget lows (i - 1))
    if 2 ≤ i then jmin a (jget lows (i - 2)) else a
  else
    let a := jmax sar1 (jget highs (i - 1))
    if 2 ≤ i then jmax a (jget highs (i - 2)) else a

/-- Reversal test at step `i` (price crossing the freshly pushed SAR). -/
def sarReversal (highs lows : List JNum) (s : SarState) (i : ℕ) : Bool :=
  (s.isUptrend && jlt (jget lows i) (sarComputed highs lows s i)) ||
  (!s.isUptrend && jgt (jget highs i) (sarComputed highs lows s i))

/-- State after step `i` of `calculateParabolicSAR`.  On a reversal the
source sets `sar = isUptrend ? lows[i] : highs[i]` for the NEW trend (the
current bar's low/high, not the prior extreme point), `ep` to the current
bar's high/low and `af = initialAF`; otherwise the extreme point may extend
and the acceleration factor grows by `initialAF` capped at `maxAF`. -/
def sarNext (highs lows : List JNum) (initialAF maxAF : ℚ) (s : SarState) (i : ℕ) : SarState :=
  let sar2 := sarComputed highs lows s i
  if sarReversal highs lows s i then
    let newUp := !s.isUptrend
    ⟨newUp, if newUp then jget highs i else jget lows i,
           if newUp then jget lows i else jget highs i, initialAF⟩
  else if s.isUptrend && jgt (jget highs i) s.ep then
    ⟨s.isUptrend, jget highs i, sar2, min (s.af + initialAF) maxAF⟩
  else if !s.isUptrend && jlt (jget lows i) s.ep then
    ⟨s.isUptrend, jget lows i, sar2, min (s.af + initialAF) maxAF⟩
  else
    ⟨s.isUptrend, s.ep, sar2, s.af⟩

/-- Every state the scan of `calculateParabolicSAR` passes through (the
initial state, then one per loop iteration `i = 1 .. closes.length-1`). -/
def sarStates (highs lows closes : List JNum) (initialAF maxAF : ℚ) : List SarState :=
  List.scanl (sarNext highs lows initialAF maxAF) (sarInit highs lows closes initialAF)
    ((List.range closes.length).drop 1)

/-- `calculateParabolicSAR`: leading NaN, then the value pushed at each
iteration (pushed BEFORE the reversal test, hence `sarComputed` of the state
entering the iteration). -/
def calculateParabolicSAR (highs lows closes : List JNum) (initialAF maxAF : ℚ) : List JNum :=
  none :: (((List.range closes.length).drop 1).foldl
    (fun (acc : SarState × List JNum) i =>
      (sarNext highs lows initialAF maxAF acc.1 i,
       acc.2 ++ [sarComputed highs lows acc.1 i]))
    (sarInit highs lows closes initialAF, [])).2

end Ind

/-! ## Concrete inputs used by counterexamples and witnesses -/

/-- A flat bar: every price 100. -/
def bar100 : Bar := ⟨"2024-01-01", 100, 100, 100, 100, 0⟩

/-- Thirty flat bars: the minimal valid forecast input. -/
def flat30 : List Bar := List.replicate 30 bar100

/-- A flat 16-value price series (all closes/highs/lows equal). -/
def flat16 : List JNum := List.replicate 16 (some 100)

/-- A flat 16-value price series at an arbitrary level `c`. -/
def flatC (c : ℚ) : List JNum := List.replicate 16 (some c)

/-- Highs of a four-bar uptrend that crashes on the last bar. -/
def sarH : List JNum := [some 11, some 12, some 13, some 6]

/-- Lows of the same four bars. -/
def sarL : List JNum := [some 9, some 10, some 11, some 4]

/-- Closes of the same four bars. -/
def sarC : List JNum := [some 10, some 11, some 12, some 5]

/-- Highs of a two-bar rising series (extreme point extends at step 1). -/
def sarH2 : List JNum := [some 11, some 12]

/-- Lows of the same two bars. -/
def sarL2 : List JNum := [some 9, some 10]

/-- Closes of the same two bars. -/
def sarC2 : List JNum := [some 10, some 11]

/-! ## Helper lemmas about the JS-number model -/

theorem jget_oob (l : List JNum) (k : ℕ) (h : l.length ≤ k) : jget l k = none :=
  l.getD_eq_default none h

theorem jget_append_right (l1 l2 : List JNum) (i : ℕ) (h : l1.length ≤ i) :
    jget (l1 ++ l2) i = jget l2 (i - l1.length) := by
  simp [jget, List.getD, List.get?_eq_getElem?, List.getElem?_append_right h]

theorem jget_drop (l : List JNum) (i j : ℕ) : jget (l.drop i) j = jget l (i + j) := by
  simp [jget, List.getD, List.get?_eq_getElem?, List.getElem?_drop]

theorem jbin_none_left (f : ℚ → ℚ → ℚ) (x : JNum) : jbin f none x = none := by
  cases x <;> rfl

theorem jadd_none_left (x : JNum) : jadd none x = none := jbin_none_left _ x

theorem jsub_none_left (x : JNum) : jsub none x = none := jbin_none_left _ x

theorem jmul_none_left (x : JNum) : jmul none x = none := jbin_none_left _ x

theorem jdiv_none_left (x : JNum) : jdiv none x = none := by
  cases x <;> rfl

theorem jlt_none_left (x : JNum) : jlt none x = false := by
  cases x <;> rfl

theorem jlt_none_right (x : JNum) : jlt x none = false := by
  cases x <;> rfl

theorem jbin_none_right (f : ℚ → ℚ → ℚ) (x : JNum) : jbin f x none = none := by
  cases x <;> rfl

theorem jsub_none_right (x : JNum) : jsub x none = none := jbin_none_right _ x

theorem jmin_none_right (x : JNum) : jmin x none = none := jbin_none_right _ x

theorem jmax_none_right (x : JNum) : jmax x none = none := jbin_none_right _ x

theorem jdiv_none_right (x : JNum) : jdiv x none = none := by
  cases x <;> rfl

theorem jadd_ne_none (a b : JNum) (ha : a ≠ none) (hb : b ≠ none) : jadd a b ≠ none := by
  cases a <;> cases b <;> simp_all [jadd, jbin]

theorem jsub_ne_none (a b : JNum) (ha : a ≠ none) (hb : b ≠ none) : jsub a b ≠ none := by
  cases a <;> cases b <;> simp_all [jsub, jbin]

theorem jmul_ne_none (a b : JNum) (ha : a ≠ none) (hb : b ≠ none) : jmul a b ≠ none := by
  cases a <;> cases b <;> simp_all [jmul, jbin]

theorem jdiv_ne_none (a : JNum) (q : ℚ) (ha : a ≠ none) (hq : q ≠ 0) :
    jdiv a (some q) ≠ none := by
  cases a with
  | none => exact absurd rfl ha
  | some x => simp [jdiv, hq]

theorem jadd_some (a b : ℚ) : jadd (some a) (some b) = some (a + b) := rfl

theorem jsub_some (a b : ℚ) : jsub (some a) (some b) = some (a - b) := rfl

theorem jmul_some (a b : ℚ) : jmul (some a) (some b) = some (a * b) := rfl

theorem jmin_some (a b : ℚ) : jmin (some a) (some b) = some (min a b) := rfl

theorem jmax_some (a b : ℚ) : jmax (some a) (some b) = some (max a b) := rfl

theorem jlt_some (a b : ℚ) : jlt (some a) (some b) = decide (a < b) := rfl

theorem jgt_some (a b : ℚ) : jgt (some a) (some b) = decide (b < a) := rfl

theorem jabs_some (a : ℚ) : jabs (some a) = some |a| := rfl

theorem jabs_none : jabs none = none := rfl

theorem jdiv_some (a b : ℚ) (h : b ≠ 0) : jdiv (some a) (some b) = some (a / b) := by
  simp [jdiv, h]

theorem jdiv_some_zero (a : ℚ) : jdiv (some a) (some 0) = none := by
  simp [jdiv]

theorem jget_replicate (m : ℕ) (x : JNum) (i : ℕ) (h : i < m) :
    jget (List.replicate m x) i = x := by
  rw [jget, List.getD_eq_getElem _ _ (by simpa using h)]
  simp

theorem jgt_same (a : ℚ) : jgt (some a) (some a) = false := by
  rw [jgt_some]
  exact decide_eq_false (lt_irrefl a)

theorem jlt_same (a : ℚ) : jlt (some a) (some a) = false := by
  rw [jlt_some]
  exact decide_eq_false (lt_irrefl a)

theorem jadd_comm (x y : JNum) : jadd x y = jadd y x := by
  cases x <;> cases y <;> simp [jadd, jbin, add_comm]

theorem jadd_right_swap (a x b : JNum) : jadd (jadd a x) b = jadd (jadd a b) x := by
  cases a <;> cases x <;> cases b <;> simp [jadd, jbin, add_right_comm]

theorem foldl_jadd_shift (l : List JNum) : ∀ a x : JNum,
    l.foldl jadd (jadd a x) = jadd x (l.foldl jadd a) := by
  induction l with
  | nil => intro a x; simpa using jadd_comm a x
  | cons b t ih =>
    intro a x
    simp only [List.foldl_cons]
    rw [jadd_right_swap a x b]
    exact ih (jadd a b) x

theorem jsum_cons (x : JNum) (l : List JNum) : jsum (x :: l) = jadd x (jsum l) := by
  simp only [jsum, List.foldl_cons]
  exact foldl_jadd_shift l (some 0) x

theorem jsum_replicate_zero (n : ℕ) : jsum (List.replicate n (some 0)) = some 0 := by
  induction n with
  | zero => rfl
  | succ k ih =>
    rw [List.replicate_succ, jsum_cons, ih, jadd_some, add_zero]

/-- Invariant propagation along `List.scanl` (used for the SAR state scan). -/
theorem scanl_invariant {α β : Type} (f : α → β → α) (P : α → Prop)
    (hstep : ∀ a b, P a → P (f a b)) :
    ∀ (l : List β) (a : α), P a → ∀ s ∈ List.scanl f a l, P s := by
  intro l
  induction l with
  | nil =>
    intro a ha s hs
    simp only [List.scanl, List.mem_singleton] at hs
    rwa [hs]
  | cons b t ih =>
    intro a ha s hs
    rw [List.scanl_cons] at hs
    simp only [List.singleton_append, List.mem_cons] at hs
    rcases hs with h | h
    · rwa [h]
    · exact ih (f a b) (hstep a b ha) s h

/-! ## Structure of the two forecast runs and the caller-array mutation -/

namespace Pred

theorem arimaStep_data (s : ArimaState) (i : ℕ) :
    (arimaStep s i).data
      = s.data ++ [jadd (jget s.data (s.data.length - 1 + i)) (nextDiffOf s)] := rfl

theorem arimaStep_predictions (s : ArimaState) (i : ℕ) :
    (arimaStep s i).predictions
      = s.predictions ++ [jadd (jget s.data (s.data.length - 1 + i)) (nextDiffOf s)] := rfl

/-- For every iteration `i ≥ 1` the read `data[data.length - 1 + i]` is out
of bounds (the array has grown by `i` entries but the index grew by `2i`),
so the pushed value is NaN. -/
theorem arimaStep_push_none (s : ArimaState) (i : ℕ) (h : 1 ≤ i) :
    jadd (jget s.data (s.data.length - 1 + i)) (nextDiffOf s) = none := by
  rw [jget_oob _ _ (by omega), jadd_none_left]

theorem arima_tail_steps (idxs : List ℕ) :
    ∀ s : ArimaState, (∀ i ∈ idxs, 1 ≤ i) →
      (idxs.foldl arimaStep s).data = s.data ++ List.replicate idxs.length none
      ∧ (idxs.foldl arimaStep s).predictions
          = s.predictions ++ List.replicate idxs.length none := by
  induction idxs with
  | nil => intro s _; simp
  | cons i t ih =>
    intro s hmem
    have hi : 1 ≤ i := hmem i (List.mem_cons_self i t)
    have ht : ∀ j ∈ t, 1 ≤ j := fun j hj => hmem j (List.mem_cons_of_mem i hj)
    refine ⟨?_, ?_⟩
    · rw [List.foldl_cons, (ih (arimaStep s i) ht).1, arimaStep_data,
        arimaStep_push_none s i hi]
      simp [List.replicate_succ]
    · rw [List.foldl_cons, (ih (arimaStep s i) ht).2, arimaStep_predictions,
        arimaStep_push_none s i hi]
      simp [List.replicate_succ]

theorem arimaRun_one_data (data : List JNum) :
    (arimaRun data 1).data = data ++ [firstPush data] := rfl

theorem arimaRun_one_predictions (data : List JNum) :
    (arimaRun data 1).predictions = [firstPush data] := rfl

theorem arimaRun_seven_data (data : List JNum) :
    (arimaRun data 7).data = data ++ firstPush data :: List.replicate 6 none := by
  have hstart : arimaRun data 7
      = [1, 2, 3, 4, 5, 6].foldl arimaStep (arimaStep ⟨data, diffSeries data, []⟩ 0) := rfl
  rw [hstart, (arima_tail_steps [1, 2, 3, 4, 5, 6] _ (by decide)).1, arimaStep_data]
  simp [firstPush]

theorem arimaRun_seven_predictions (data : List JNum) :
    (arimaRun data 7).predictions = firstPush data :: List.replicate 6 none := by
  have hstart : arimaRun data 7
      = [1, 2, 3, 4, 5, 6].foldl arimaStep (arimaStep ⟨data, diffSeries data, []⟩ 0) := rfl
  rw [hstart, (arima_tail_steps [1, 2, 3, 4, 5, 6] _ (by decide)).2, arimaStep_predictions]
  simp [firstPush]

theorem closes2_eq (bars : List Bar) :
    closes2 bars = (closesOf bars ++ [firstPush (closesOf bars)])
      ++ firstPush (closesOf bars ++ [firstPush (closesOf bars)])
          :: List.replicate 6 none := by
  rw [closes2, arimaRun_seven_data, arimaRun_one_data]

theorem closesOf_length (bars : List Bar) : (closesOf bars).length = bars.length := by
  simp [closesOf]

theorem closes2_length (bars : List Bar) : (closes2 bars).length = bars.length + 8 := by
  rw [closes2_eq]
  simp [closesOf]

theorem closes2_last_none (bars : List Bar) :
    jget (closes2 bars) (bars.length + 7) = none := by
  rw [closes2_eq, jget_append_right _ _ _ (by simp [closesOf])]
  have hidx : bars.length + 7 - (closesOf bars ++ [firstPush (closesOf bars)]).length = 6 := by
    simp [closesOf]
  rw [hidx]
  rfl

theorem determineTrend_last_none (l : List JNum) (h10 : 10 ≤ l.length)
    (h : jget l (l.length - 1) = none) : determineTrend l = Trend.neutral := by
  have hidx : l.length - 10 + ((l.drop (l.length - 10)).length - 1) = l.length - 1 := by
    simp only [List.length_drop]
    omega
  simp only [determineTrend, jget_drop, hidx, h, jgt, jsub_none_left, jdiv_none_left,
    jmul_none_left, jlt_none_left, jlt_none_right]
  rfl

theorem predictOk_actual (bars : List Bar) : (predictOk bars).actual = closes2 bars := rfl

theorem predictOk_trend (bars : List Bar) :
    (predictOk bars).trend = determineTrend (closes2 bars) := rfl

theorem predictOk_nextDay (bars : List Bar) :
    (predictOk bars).nextDayPrediction = jget (arimaRun (closesOf bars) 1).predictions 0 := rfl

theorem predictOk_nextWeek (bars : List Bar) :
    (predictOk bars).nextWeekPrediction = jget (arimaRun (arimaRun (closesOf bars) 1).data 7).predictions 6 := rfl

theorem predictOk_support (bars : List Bar) :
    (predictOk bars).supportLevel = (findSupportResistance (closes2 bars)).support := rfl

theorem predictOk_resistance (bars : List Bar) :
    (predictOk bars).resistanceLevel = (findSupportResistance (closes2 bars)).resistance := rfl

theorem predictOk_dates (bars : List Bar) : (predictOk bars).dates = bars.map Bar.date := rfl

theorem findSupportResistance_support (data : List JNum) :
    (findSupportResistance data).support = jget (sortAsc data) (data.length / 4) := rfl

theorem findSupportResistance_resistance (data : List JNum) :
    (findSupportResistance data).resistance = jget (sortAsc data) (3 * data.length / 4) := rfl

theorem regFold_sumX (xs ys : List JNum) :
    ∀ (l : List ℕ) (s0 : RegSums), (l.foldl (regStep xs ys) s0).sumX
      = l.foldl (fun a i => jadd a (jget xs i)) s0.sumX := by
  intro l
  induction l with
  | nil => intro s0; rfl
  | cons i t ih =>
    intro s0
    simp only [List.foldl_cons, ih]
    rfl

theorem regFold_sumXX (xs ys : List JNum) :
    ∀ (l : List ℕ) (s0 : RegSums), (l.foldl (regStep xs ys) s0).sumXX
      = l.foldl (fun a i => jadd a (jmul (jget xs i) (jget xs i))) s0.sumXX := by
  intro l
  induction l with
  | nil => intro s0; rfl
  | cons i t ih =>
    intro s0
    simp only [List.foldl_cons, ih]
    rfl

theorem regFold_sumY_ne_none (xs ys : List JNum) :
    ∀ (l : List ℕ) (s0 : RegSums), (∀ i ∈ l, jget ys i ≠ none) → s0.sumY ≠ none →
      (l.foldl (regStep xs ys) s0).sumY ≠ none := by
  intro l
  induction l with
  | nil => intro s0 _ h; exact h
  | cons i t ih =>
    intro s0 hl h
    simp only [List.foldl_cons]
    exact ih _ (fun j hj => hl j (List.mem_cons_of_mem i hj))
      (jadd_ne_none _ _ h (hl i (List.mem_cons_self i t)))

theorem regFold_sumXY_ne_none (xs ys : List JNum) :
    ∀ (l : List ℕ) (s0 : RegSums), (∀ i ∈ l, jget xs i ≠ none) →
      (∀ i ∈ l, jget ys i ≠ none) → s0.sumXY ≠ none →
      (l.foldl (regStep xs ys) s0).sumXY ≠ none := by
  intro l
  induction l with
  | nil => intro s0 _ _ h; exact h
  | cons i t ih =>
    intro s0 hx hy h
    simp only [List.foldl_cons]
    exact ih _ (fun j hj => hx j (List.mem_cons_of_mem i hj))
      (fun j hj => hy j (List.mem_cons_of_mem i hj))
      (jadd_ne_none _ _ h (jmul_ne_none _ _ (hx i (List.mem_cons_self i t))
        (hy i (List.mem_cons_self i t))))

theorem xValuesTrain_length : xValuesTrain.length = 20 := by
  simp [xValuesTrain]

theorem jget_xValuesTrain (i : ℕ) (h : i < 20) : jget xValuesTrain i = some ((i : ℚ) + 1) := by
  have hlen : i < xValuesTrain.length := by
    rw [xValuesTrain_length]
    exact h
  rw [jget, List.getD_eq_getElem _ _ hlen]
  simp [xValuesTrain]

theorem xTrain_sumX :
    (List.range 20).foldl (fun a i => jadd a (jget xValuesTrain i)) (some 0) = some 210 := by
  have h20 : List.range 20 = [0, 1, 2, 3, 4, 5, 6, 7, 8, 9, 10, 11, 12, 13, 14, 15, 16, 17,
      18, 19] := rfl
  rw [h20]
  norm_num [jget_xValuesTrain, jadd, jbin]

theorem xTrain_sumXX :
    (List.range 20).foldl (fun a i => jadd a (jmul (jget xValuesTrain i) (jget xValuesTrain i)))
      (some 0) = some 2870 := by
  have h20 : List.range 20 = [0, 1, 2, 3, 4, 5, 6, 7, 8, 9, 10, 11, 12, 13, 14, 15, 16, 17,
      18, 19] := rfl
  rw [h20]
  norm_num [jget_xValuesTrain, jadd, jmul, jbin]

/-- A back-fit regression over 20 defined closes is a defined value: the
`x`-side sums are the concrete 210 and 2870, so the slope denominator is
`20*2870 - 210^2 = 13300 ≠ 0` and no division yields NaN. -/
theorem linearRegression_train_ne_none (ys : List JNum)
    (hy : ∀ i, i < 20 → jget ys i ≠ none) :
    linearRegression xValuesTrain ys (some 21) ≠ none := by
  have hx : ∀ i ∈ List.range 20, jget xValuesTrain i ≠ none := by
    intro i hi
    rw [jget_xValuesTrain i (List.mem_range.mp hi)]
    simp
  have hy' : ∀ i ∈ List.range 20, jget ys i ≠ none :=
    fun i hi => hy i (List.mem_range.mp hi)
  simp only [linearRegression, xValuesTrain_length]
  set s := (List.range 20).foldl (regStep xValuesTrain ys) ⟨some 0, some 0, some 0, some 0⟩
    with hs
  have h1 : s.sumX = some 210 := by
    rw [hs, regFold_sumX]
    exact xTrain_sumX
  have h2 : s.sumXX = some 2870 := by
    rw [hs, regFold_sumXX]
    exact xTrain_sumXX
  have h3 : s.sumY ≠ none := by
    rw [hs]
    exact regFold_sumY_ne_none _ _ _ _ hy' (by simp)
  have h4 : s.sumXY ≠ none := by
    rw [hs]
    exact regFold_sumXY_ne_none _ _ _ _ hx hy' (by simp)
  have hden : jsub (jmul (some (20 : ℕ)) s.sumXX) (jmul s.sumX s.sumX) = some 13300 := by
    rw [h1, h2]
    norm_num [jmul, jsub, jbin]
  rw [hden]
  have hslope : jdiv (jsub (jmul (some (20 : ℕ)) s.sumXY) (jmul s.sumX s.sumY))
      (some 13300) ≠ none := by
    refine jdiv_ne_none _ _ ?_ (by norm_num)
    refine jsub_ne_none _ _ ?_ ?_
    · exact jmul_ne_none _ _ (by simp) h4
    · rw [h1]
      exact jmul_ne_none _ _ (by simp) h3
  refine jadd_ne_none _ _ (jmul_ne_none _ _ hslope (by simp)) ?_
  refine jdiv_ne_none _ _ ?_ (by norm_num)
  refine jsub_ne_none _ _ h3 (jmul_ne_none _ _ hslope ?_)
  rw [h1]
  simp

theorem backfitValues_length (bars : List Bar) :
    (backfitValues (closesOf bars)).length = bars.length - 20 := by
  rw [backfitValues, List.length_map, List.length_drop, List.length_range, closesOf_length]

theorem jget_closesOf_ne_none (bars : List Bar) (k : ℕ) (hk : k < bars.length) :
    jget (closesOf bars) k ≠ none := by
  have hlen : k < (closesOf bars).length := by
    rw [closesOf_length]
    exact hk
  rw [jget, List.getD_eq_getElem _ _ hlen]
  simp [closesOf]

theorem jget_take_drop (l : List JNum) (a j n : ℕ) (hj : j < n) (_hlen : a + j < l.length) :
    jget ((l.drop a).take n) j = jget l (a + j) := by
  simp only [jget, List.getD, List.get?_eq_getElem?, List.getElem?_take, hj, if_true,
    List.getElem?_drop]

/-- Every back-fit prediction is a defined value (the regression only reads
in-range, defined closes and its fixed denominators are nonzero). -/
theorem backfit_all_ne_none (bars : List Bar) :
    ∀ x ∈ backfitValues (closesOf bars), x ≠ none := by
  intro x hx
  rw [backfitValues, List.mem_map] at hx
  obtain ⟨i, hi, rfl⟩ := hx
  rw [List.mem_iff_getElem] at hi
  obtain ⟨k, hk, hik⟩ := hi
  rw [List.getElem_drop, List.getElem_range] at hik
  have hklen : k < (closesOf bars).length - 20 := by
    simpa using hk
  have hi20 : 20 ≤ i ∧ i < (closesOf bars).length := by omega
  apply linearRegression_train_ne_none
  intro j hj
  rw [jget_take_drop _ _ _ _ hj (by omega)]
  apply jget_closesOf_ne_none
  rw [← closesOf_length bars]
  omega

theorem nonNullOf_eq (bars : List Bar) : nonNullOf bars = backfitValues (closesOf bars) := by
  rw [nonNullOf, paddedBackfit, List.filter_append]
  have h1 : (List.replicate 20 (none : JNum)).filter (fun p => p ≠ none) = [] := by decide
  have h2 : (backfitValues (closesOf bars)).filter (fun p => p ≠ none)
      = backfitValues (closesOf bars) := by
    rw [List.filter_eq_self]
    intro a ha
    simpa using backfit_all_ne_none bars a ha
  rw [h1, h2, List.nil_append]

theorem predictOk_confidence (bars : List Bar) :
    (predictOk bars).confidence
      = calculateConfidence
          ((closes2 bars).drop ((closes2 bars).length - (nonNullOf bars).length))
          (nonNullOf bars) := rfl

theorem predictStockPrices_ok (bars : List Bar) (h : 30 ≤ bars.length) :
    predictStockPrices bars = .ok (predictOk bars) := by
  rw [predictStockPrices, if_neg (by omega)]

theorem predictStockPrices_error (bars : List Bar) (h : bars.length < 30) :
    predictStockPrices bars = .error .insufficientData := by
  rw [predictStockPrices, if_pos h]

end Pred

/-! ## Claim theorems -/

/-- C1 (code_bug evidence): for every input of at least 30 bars the 7-day
forecast run does NOT start from the original close series.  Because
`arimaInspiredPrediction` pushes its forecasts onto the caller's
`closePrices` array, the series the 7-step run starts from is the original
closes with the 1-day run's output appended (and in particular differs from
the original series), contradicting the claimed independence of the two
runs. -/
theorem c1_seven_day_run_not_independent (bars : List Bar) (h : 30 ≤ bars.length) :
    Pred.predictStockPrices bars = .ok (Pred.predictOk bars)
    ∧ (Pred.arimaRun (Pred.closesOf bars) 1).data
        = Pred.closesOf bars ++ [(Pred.predictOk bars).nextDayPrediction]
    ∧ (Pred.predictOk bars).nextWeekPrediction
        = jget (Pred.arimaRun ((Pred.arimaRun (Pred.closesOf bars) 1).data) 7).predictions 6
    ∧ (Pred.arimaRun (Pred.closesOf bars) 1).data ≠ Pred.closesOf bars := by
  refine ⟨Pred.predictStockPrices_ok bars h, ?_, Pred.predictOk_nextWeek bars, ?_⟩
  · rw [Pred.arimaRun_one_data, Pred.predictOk_nextDay, Pred.arimaRun_one_predictions]
    rfl
  · intro hcontra
    have hlen := congrArg List.length hcontra
    simp [Pred.arimaRun_one_data] at hlen

/-- Witness for C1 at the concrete flat 30-bar input. -/
theorem c1_seven_day_run_not_independent_witness :
    30 ≤ flat30.length
    ∧ (Pred.arimaRun (Pred.closesOf flat30) 1).data
        = Pred.closesOf flat30 ++ [(Pred.predictOk flat30).nextDayPrediction] :=
  ⟨by decide, (c1_seven_day_run_not_independent flat30 (by decide)).2.1⟩

/-- C2 (code_bug evidence): for every input of at least 30 bars the
`actual` result field is NOT an echo of the input closes: it is the
caller's close array as mutated by the two forecast runs, with length
`bars.length + 8` (not `bars.length`); its first `bars.length` entries do
echo the closes, but the entry at index `bars.length + 7` is the NaN
sentinel produced by the out-of-bounds reads. -/
theorem c2_actual_not_an_echo (bars : List Bar) (h : 30 ≤ bars.length) :
    Pred.predictStockPrices bars = .ok (Pred.predictOk bars)
    ∧ (Pred.predictOk bars).actual.length = bars.length + 8
    ∧ (Pred.predictOk bars).actual.take bars.length = Pred.closesOf bars
    ∧ jget (Pred.predictOk bars).actual (bars.length + 7) = none := by
  refine ⟨Pred.predictStockPrices_ok bars h, ?_, ?_, ?_⟩
  · rw [Pred.predictOk_actual, Pred.closes2_length]
  · rw [Pred.predictOk_actual, Pred.closes2_eq, List.append_assoc]
    exact List.take_left' (Pred.closesOf_length bars)
  · rw [Pred.predictOk_actual]
    exact Pred.closes2_last_none bars

/-- Witness for C2 at the concrete flat 30-bar input. -/
theorem c2_actual_not_an_echo_witness :
    30 ≤ flat30.length ∧ (Pred.predictOk flat30).actual.length = flat30.length + 8 :=
  ⟨by decide, (c2_actual_not_an_echo flat30 (by decide)).2.1⟩

/-- C5 (code_bug evidence): for every input of at least 30 bars the
returned trend is `neutral`, whatever the input closes do.  `determineTrend`
runs on the mutated close array whose final entry is NaN, so the percent
change is NaN and both threshold comparisons are false. -/
theorem c5_trend_always_neutral (bars : List Bar) (h : 30 ≤ bars.length) :
    Pred.predictStockPrices bars = .ok (Pred.predictOk bars)
    ∧ (Pred.predictOk bars).trend = Pred.Trend.neutral := by
  refine ⟨Pred.predictStockPrices_ok bars h, ?_⟩
  rw [Pred.predictOk_trend]
  apply Pred.determineTrend_last_none
  · rw [Pred.closes2_length]
    omega
  · rw [Pred.closes2_length]
    have hidx : bars.length + 8 - 1 = bars.length + 7 := by omega
    rw [hidx]
    exact Pred.closes2_last_none bars

/-- Witness for C5: thirty flat bars (the claim's rule would also say
neutral here, but the theorem shows the code says neutral for every input,
e.g. also for steeply rising closes). -/
theorem c5_trend_always_neutral_witness :
    30 ≤ flat30.length ∧ (Pred.predictOk flat30).trend = Pred.Trend.neutral :=
  ⟨by decide, (c5_trend_always_neutral flat30 (by decide)).2⟩

/-- C6 (confirmed): `predictStockPrices` signals `InsufficientDataError`
exactly when fewer than 30 bars are supplied, and for at least 30 bars
(including exactly 30) returns a `PredictionResult` whose `dates` echo the
input dates, without throwing. -/
theorem c6_insufficient_data_error (bars : List Bar) :
    (bars.length < 30 →
      Pred.predictStockPrices bars = .error .insufficientData)
    ∧ (30 ≤ bars.length →
      Pred.predictStockPrices bars = .ok (Pred.predictOk bars)
      ∧ (Pred.predictOk bars).dates = bars.map Bar.date) :=
  ⟨fun h => Pred.predictStockPrices_error bars h,
   fun h => ⟨Pred.predictStockPrices_ok bars h, Pred.predictOk_dates bars⟩⟩

/-- Witness for C6: the empty input errors; exactly 30 bars succeed. -/
theorem c6_insufficient_data_error_witness :
    Pred.predictStockPrices [] = .error .insufficientData
    ∧ Pred.predictStockPrices flat30 = .ok (Pred.predictOk flat30) :=
  ⟨(c6_insufficient_data_error []).1 (by decide),
   ((c6_insufficient_data_error flat30).2 (by decide)).1⟩

/-- C7 (code_bug evidence): for every input of at least 30 bars the
support/resistance quantiles are computed over the MUTATED close array of
length `bars.length + 8` (which contains the two appended forecasts and six
NaN entries), at indices `floor((n+8)*0.25)` and `floor((n+8)*0.75)` — not
over the `bars.length` input closes at `floor(n*0.25)`/`floor(n*0.75)` as
claimed. -/
theorem c7_quantiles_on_mutated_series (bars : List Bar) (h : 30 ≤ bars.length) :
    Pred.predictStockPrices bars = .ok (Pred.predictOk bars)
    ∧ (Pred.predictOk bars).supportLevel
        = jget (Pred.sortAsc ((Pred.predictOk bars).actual)) ((bars.length + 8) / 4)
    ∧ (Pred.predictOk bars).resistanceLevel
        = jget (Pred.sortAsc ((Pred.predictOk bars).actual)) (3 * (bars.length + 8) / 4)
    ∧ (Pred.predictOk bars).actual.length = bars.length + 8
    ∧ (Pred.predictOk bars).actual ≠ Pred.closesOf bars := by
  refine ⟨Pred.predictStockPrices_ok bars h, ?_, ?_, ?_, ?_⟩
  · rw [Pred.predictOk_support, Pred.findSupportResistance_support, Pred.predictOk_actual,
      Pred.closes2_length]
  · rw [Pred.predictOk_resistance, Pred.findSupportResistance_resistance,
      Pred.predictOk_actual, Pred.closes2_length]
  · rw [Pred.predictOk_actual, Pred.closes2_length]
  · rw [Pred.predictOk_actual]
    intro hc
    have hlen := congrArg List.length hc
    rw [Pred.closes2_length, Pred.closesOf_length] at hlen
    omega

/-- Witness for C7 at the concrete flat 30-bar input. -/
theorem c7_quantiles_on_mutated_series_witness :
    30 ≤ flat30.length
    ∧ (Pred.predictOk flat30).supportLevel
        = jget (Pred.sortAsc ((Pred.predictOk flat30).actual)) ((flat30.length + 8) / 4) :=
  ⟨by decide, (c7_quantiles_on_mutated_series flat30 (by decide)).2.1⟩

/-- C8 (code_bug evidence): for every input of at least 30 bars the
returned confidence is the NaN sentinel — not a number in [0, 1], and not
the claimed clamp formula over input closes.  The confidence computation
pairs the back-fit predictions against a slice of the MUTATED close array
whose last entry (used for the `(0.2 * lastClose)^2` reference error) is
NaN, so the clamp chain propagates NaN. -/
theorem c8_confidence_nan (bars : List Bar) (h : 30 ≤ bars.length) :
    Pred.predictStockPrices bars = .ok (Pred.predictOk bars)
    ∧ (Pred.predictOk bars).confidence = none := by
  refine ⟨Pred.predictStockPrices_ok bars h, ?_⟩
  rw [Pred.predictOk_confidence]
  have hnn : (Pred.nonNullOf bars).length = bars.length - 20 := by
    rw [Pred.nonNullOf_eq, Pred.backfitValues_length]
  have hc2 := Pred.closes2_length bars
  set A := (Pred.closes2 bars).drop
    ((Pred.closes2 bars).length - (Pred.nonNullOf bars).length) with hA
  have hAlen : A.length = bars.length - 20 := by
    rw [hA, List.length_drop, hc2, hnn]
    omega
  have hlast : jget A (A.length - 1) = none := by
    rw [hAlen, hA, jget_drop]
    have hidx : (Pred.closes2 bars).length - (Pred.nonNullOf bars).length
        + (bars.length - 20 - 1) = bars.length + 7 := by
      rw [hc2, hnn]
      omega
    rw [hidx]
    exact Pred.closes2_last_none bars
  rw [Pred.calculateConfidence, if_neg (by rw [hnn, hAlen]; omega)]
  simp only [hlast, jmul_none_left, jdiv_none_right, jsub_none_right, jmin_none_right,
    jmax_none_right]

/-- Witness for C8 at the concrete flat 30-bar input. -/
theorem c8_confidence_nan_witness :
    30 ≤ flat30.length ∧ (Pred.predictOk flat30).confidence = none :=
  ⟨by decide, (c8_confidence_nan flat30 (by decide)).2⟩

theorem jget_flatC (c : ℚ) (i : ℕ) (h : i < 16) : jget (flatC c) i = some c := by
  rw [flatC]
  exact jget_replicate _ _ _ h

theorem flat_tr (c : ℚ) :
    Ind.trOf (flatC c) (flatC c) (flatC c) = List.replicate 15 (some 0) := by
  rw [Ind.trOf, List.eq_replicate_iff]
  refine ⟨by simp [flatC], ?_⟩
  intro b hb
  rw [List.mem_map] at hb
  obtain ⟨i, hi, rfl⟩ := hb
  have hi16 : i < 16 := by
    have h := List.mem_of_mem_drop hi
    rw [List.mem_range] at h
    simpa [flatC] using h
  rw [jget_flatC c i hi16, jget_flatC c (i - 1) (by omega), jsub_some, sub_self]
  norm_num [jabs_some, jmax_some]

theorem flat_plusDM (c : ℚ) :
    Ind.plusDMof (flatC c) (flatC c) (flatC c) = List.replicate 15 (some 0) := by
  rw [Ind.plusDMof, List.eq_replicate_iff]
  refine ⟨by simp [flatC], ?_⟩
  intro b hb
  rw [List.mem_map] at hb
  obtain ⟨i, hi, rfl⟩ := hb
  have hi16 : i < 16 := by
    have h := List.mem_of_mem_drop hi
    rw [List.mem_range] at h
    simpa [flatC] using h
  simp [jget_flatC c i hi16, jget_flatC c (i - 1) (by omega : i - 1 < 16), jsub_some,
    sub_self, jgt_same]

theorem flat_minusDM (c : ℚ) :
    Ind.minusDMof (flatC c) (flatC c) (flatC c) = List.replicate 15 (some 0) := by
  rw [Ind.minusDMof, List.eq_replicate_iff]
  refine ⟨by simp [flatC], ?_⟩
  intro b hb
  rw [List.mem_map] at hb
  obtain ⟨i, hi, rfl⟩ := hb
  have hi16 : i < 16 := by
    have h := List.mem_of_mem_drop hi
    rw [List.mem_range] at h
    simpa [flatC] using h
  simp [jget_flatC c i hi16, jget_flatC c (i - 1) (by omega : i - 1 < 16), jsub_some,
    sub_self, jgt_same]

theorem jdiv_zero_14 : jdiv (some 0) (some ((14 : ℕ) : ℚ)) = some 0 := by
  rw [jdiv_some _ _ (by norm_num)]
  norm_num

theorem wilderNext_zero : Ind.wilderNext 14 (some 0) (some 0) = some 0 := by
  rw [Ind.wilderNext, jmul_some, jadd_some]
  norm_num [jdiv_some]

/-- On a flat series every true range is zero, so the smoothed TR — the
denominator of the directional indices — is exactly zero. -/
theorem smoothed_zeros :
    Ind.calculateSmoothedAverage (List.replicate 15 (some 0)) 14 = [some 0, some 0] := by
  rw [Ind.calculateSmoothedAverage]
  have hr : (List.range (List.replicate 15 (some (0 : ℚ))).length).drop 14 = [14] := rfl
  have htake : (List.replicate 15 (some (0 : ℚ))).take 14 = List.replicate 14 (some 0) := by
    rw [List.take_replicate]
    norm_num
  rw [hr, List.foldl_cons, List.foldl_nil, htake, jsum_replicate_zero, jdiv_zero_14]
  have hget : jget [(some (0 : ℚ))] (([some (0 : ℚ)] : List JNum).length - 1) = some 0 := rfl
  rw [hget, jget_replicate _ _ _ (by norm_num), wilderNext_zero]
  rfl

/-- On a flat series `+DI` divides the zero smoothed `+DM` by the zero
smoothed TR with no epsilon guard: the result is the NaN sentinel. -/
theorem flat_plusDI (c : ℚ) :
    Ind.plusDIof (flatC c) (flatC c) (flatC c) 14 = [none, none] := by
  simp only [Ind.plusDIof]
  rw [flat_tr, flat_plusDM, smoothed_zeros]
  decide

theorem flat_minusDI (c : ℚ) :
    Ind.minusDIof (flatC c) (flatC c) (flatC c) 14 = [none, none] := by
  simp only [Ind.minusDIof]
  rw [flat_tr, flat_minusDM, smoothed_zeros]
  decide

theorem flat_dx (c : ℚ) :
    Ind.dxOf (flatC c) (flatC c) (flatC c) 14 = [none, none] := by
  simp only [Ind.dxOf]
  rw [flat_plusDI, flat_minusDI]
  decide

theorem flat_adx (c : ℚ) :
    Ind.calculateADX (flatC c) (flatC c) (flatC c) 14 = List.replicate 28 none := by
  simp only [Ind.calculateADX]
  rw [flat_dx]
  decide

theorem rsiValue_zero : Ind.rsiValue (some 0) (some 0) = some 0 := by
  rw [Ind.rsiValue]
  have hor : jorDefault (some (0 : ℚ)) (some (1/1000)) = some (1/1000) := by
    simp [jorDefault]
  rw [hor]
  norm_num [jdiv_some, jadd_some, jsub_some]

theorem flat_gains (c : ℚ) : Ind.gainsOf (flatC c) = List.replicate 15 (some 0) := by
  rw [Ind.gainsOf, List.eq_replicate_iff]
  refine ⟨by simp [flatC], ?_⟩
  intro b hb
  rw [List.mem_map] at hb
  obtain ⟨i, hi, rfl⟩ := hb
  have hi16 : i < 16 := by
    have h := List.mem_of_mem_drop hi
    rw [List.mem_range] at h
    simpa [flatC] using h
  simp [jget_flatC c i hi16, jget_flatC c (i - 1) (by omega : i - 1 < 16), jsub_some,
    sub_self, jgt_same]

theorem flat_losses (c : ℚ) : Ind.lossesOf (flatC c) = List.replicate 15 (some 0) := by
  rw [Ind.lossesOf, List.eq_replicate_iff]
  refine ⟨by simp [flatC], ?_⟩
  intro b hb
  rw [List.mem_map] at hb
  obtain ⟨i, hi, rfl⟩ := hb
  have hi16 : i < 16 := by
    have h := List.mem_of_mem_drop hi
    rw [List.mem_range] at h
    simpa [flatC] using h
  simp [jget_flatC c i hi16, jget_flatC c (i - 1) (by omega : i - 1 < 16), jsub_some,
    sub_self, jlt_same]

/-- On a flat series the RSI stays a real number (zero): the average-loss
denominator is replaced by the `0.001` epsilon, so no division by zero
occurs. -/
theorem flat_rsi (c : ℚ) :
    Ind.calculateRSI (flatC c) 14 = List.replicate 14 none ++ [some 0, some 0] := by
  simp only [Ind.calculateRSI]
  rw [flat_gains, flat_losses]
  have htake : (List.replicate 15 (some (0 : ℚ))).take 14 = List.replicate 14 (some 0) := by
    rw [List.take_replicate]
    norm_num
  rw [htake, jsum_replicate_zero, jdiv_zero_14]
  have hr : (List.range (flatC c).length).drop (14 + 1) = [15] := rfl
  rw [hr, List.foldl_cons, List.foldl_nil]
  rw [jget_replicate _ _ _ (by norm_num : (15 : ℕ) - 1 < 15)]
  rw [wilderNext_zero, rsiValue_zero]
  rfl

/-- The indicator-engine SMA inner loop `sum += data[i-j]` sums exactly the
trailing window `data[i-P+1..i]`. -/
theorem smaFold_eq_jsum (data : List JNum) :
    ∀ P i : ℕ, P ≤ i + 1 → i < data.length →
      (List.range P).foldl (fun sum j => jadd sum (jget data (i - j))) (some 0)
        = jsum ((data.drop (i + 1 - P)).take P) := by
  intro P
  induction P with
  | zero =>
    intro i _ _
    simp [jsum]
  | succ P ih =>
    intro i hP hi
    rw [List.range_succ, List.foldl_append, List.foldl_cons, List.foldl_nil]
    rw [ih i (by omega) hi]
    have h1 : i + 1 - (P + 1) = i - P := by omega
    rw [h1]
    have h2 : i - P < data.length := by omega
    rw [List.drop_eq_getElem_cons h2, List.take_succ_cons, jsum_cons]
    have h3 : i - P + 1 = i + 1 - P := by omega
    rw [h3, jadd_comm]
    congr 1
    rw [jget, List.getD_eq_getElem _ _ h2]

/-- C9 counterexample: the forecast engine's private `calculateSMA` does NOT
return a same-length undefined-padded array on short input — it returns the
EMPTY array for a 2-element input with window 3. -/
theorem c9_pred_sma_counterexample :
    Pred.calculateSMA [some 1, some 2] 3 = []
    ∧ (Pred.calculateSMA [some 1, some 2] 3).length
        ≠ ([some (1 : ℚ), some 2] : List JNum).length := by
  constructor
  · rfl
  · decide

/-- C9 (amended, proved): the INDICATOR engine's `calculateSMA` satisfies
the claim in full — index-aligned output, all-NaN of input length when the
input is shorter than the period, NaN during the warm-up `i < P-1`, and the
arithmetic mean of `data[i-P+1..i]` from `i = P-1` on; the FORECAST engine's
private `calculateSMA` instead returns an unpadded array of length
`n - (P-1)` (empty on short input). -/
theorem c9_sma_spec (data : List JNum) (P : ℕ) (_hP : 1 ≤ P) :
    (Ind.calculateSMA data P).length = data.length
    ∧ (data.length < P → Ind.calculateSMA data P = List.replicate data.length none)
    ∧ (∀ i, i + 1 < P → (Ind.calculateSMA data P).getD i none = none)
    ∧ (∀ i, P ≤ i + 1 → i < data.length →
        (Ind.calculateSMA data P).getD i none
          = jdiv (jsum ((data.drop (i + 1 - P)).take P)) (some P))
    ∧ (Pred.calculateSMA data P).length = data.length - (P - 1) := by
  refine ⟨by simp [Ind.calculateSMA], ?_, ?_, ?_, by simp [Pred.calculateSMA]⟩
  · intro hshort
    rw [Ind.calculateSMA, List.eq_replicate_iff]
    refine ⟨by simp, ?_⟩
    intro b hb
    rw [List.mem_map] at hb
    obtain ⟨i, hi, rfl⟩ := hb
    rw [List.mem_range] at hi
    rw [if_pos (by omega)]
  · intro i hwarm
    rcases lt_or_le i data.length with hi | hi
    · have hlen : i < (Ind.calculateSMA data P).length := by
        simpa [Ind.calculateSMA] using hi
      rw [List.getD_eq_getElem _ _ hlen]
      simp only [Ind.calculateSMA, List.getElem_map, List.getElem_range]
      rw [if_pos hwarm]
    · rw [List.getD_eq_default]
      simpa [Ind.calculateSMA] using hi
  · intro i hge hi
    have hlen : i < (Ind.calculateSMA data P).length := by
      simpa [Ind.calculateSMA] using hi
    rw [List.getD_eq_getElem _ _ hlen]
    simp only [Ind.calculateSMA, List.getElem_map, List.getElem_range]
    rw [if_neg (by omega)]
    rw [smaFold_eq_jsum data P i hge hi]

/-- Witness for C9's amended theorem on a concrete 3-element input with
period 2: the entry at index 2 is the mean of the last two values. -/
theorem c9_sma_spec_witness :
    1 ≤ 2
    ∧ (Ind.calculateSMA [some 1, some 2, some 3] 2).getD 2 none
      = jdiv (jsum ((([some (1 : ℚ), some 2, some 3] : List JNum).drop (2 + 1 - 2)).take 2))
          (some ((2 : ℕ) : ℚ)) :=
  ⟨by norm_num,
   (c9_sma_spec [some 1, some 2, some 3] 2 (by norm_num)).2.2.2.1 2 (by decide) (by decide)⟩

/-- C3 counterexample: on a flat 16-bar series (all prices 100) the smoothed
true range fed to the `+DI` division is exactly `[0, 0]` and the resulting
directional index entries are the NaN sentinel: the ADX directional-index
denominator is NOT epsilon-guarded — the division by zero actually happens
(yielding NaN, never a throw). -/
theorem c3_adx_unguarded_counterexample :
    Ind.calculateSmoothedAverage (Ind.trOf flat16 flat16 flat16) 14 = [some 0, some 0]
    ∧ Ind.plusDIof flat16 flat16 flat16 14 = [none, none]
    ∧ Ind.calculateADX flat16 flat16 flat16 14 = List.replicate 28 none := by
  have hf : flat16 = flatC 100 := rfl
  rw [hf]
  exact ⟨by rw [flat_tr]; exact smoothed_zeros, flat_plusDI 100, flat_adx 100⟩

/-- C3 (amended, proved): for every flat 16-bar price series (any level
`c`), neither `calculateRSI` nor `calculateADX` throws — both are total
functions in this model; the RSI average-loss denominator IS epsilon-guarded
(`avgLoss || 0.001`), producing the real value 0, while the ADX
directional-index denominators are NOT guarded: the smoothed TR is exactly
zero and the `+DI`/`-DI`/DX/ADX entries come out as the NaN sentinel rather
than an epsilon-substituted number. -/
theorem c3_rsi_guarded_adx_not (c : ℚ) :
    Ind.calculateRSI (flatC c) 14 = List.replicate 14 none ++ [some 0, some 0]
    ∧ Ind.calculateSmoothedAverage (Ind.trOf (flatC c) (flatC c) (flatC c)) 14
        = [some 0, some 0]
    ∧ Ind.plusDIof (flatC c) (flatC c) (flatC c) 14 = [none, none]
    ∧ Ind.minusDIof (flatC c) (flatC c) (flatC c) 14 = [none, none]
    ∧ Ind.calculateADX (flatC c) (flatC c) (flatC c) 14 = List.replicate 28 none :=
  ⟨flat_rsi c, by rw [flat_tr]; exact smoothed_zeros, flat_plusDI c, flat_minusDI c,
   flat_adx c⟩

/-- The acceleration factor after one SAR step is the initial factor, the
capped increment, or unchanged. -/
theorem sarNext_af (highs lows : List JNum) (iAF mAF : ℚ) (s : Ind.SarState) (i : ℕ) :
    (Ind.sarNext highs lows iAF mAF s i).af = iAF
    ∨ (Ind.sarNext highs lows iAF mAF s i).af = min (s.af + iAF) mAF
    ∨ (Ind.sarNext highs lows iAF mAF s i).af = s.af := by
  simp only [Ind.sarNext]
  split
  · left
    rfl
  · split
    · right
      left
      rfl
    · split
      · right
        left
        rfl
      · right
        right
        rfl

/-- The SAR scan state trace on the four-bar uptrend-then-crash input at the
default parameters: the reversal at step 3 sets the SAR to the current bar's
HIGH (6), not to the prior extreme point (13). -/
theorem sar_trace_crash :
    Ind.sarStates sarH sarL sarC (1/50) (1/5)
      = [⟨true, some 11, some 9, 1/50⟩, ⟨true, some 12, some 9, 1/25⟩,
         ⟨true, some 13, some 9, 3/50⟩, ⟨false, some 4, some 6, 1/50⟩] := by
  have hr : (List.range sarC.length).drop 1 = [1, 2, 3] := rfl
  have h0 : Ind.sarInit sarH sarL sarC (1/50) = ⟨true, some 11, some 9, 1/50⟩ := by
    norm_num [Ind.sarInit, sarH, sarL, sarC, jget, jgt_some, jlt_some]
  have h1 : Ind.sarNext sarH sarL (1/50) (1/5) ⟨true, some 11, some 9, 1/50⟩ 1
      = ⟨true, some 12, some 9, 1/25⟩ := by
    norm_num [Ind.sarNext, Ind.sarReversal, Ind.sarComputed, sarH, sarL, jget,
      jadd_some, jsub_some, jmul_some, jmin_some, jmax_some, jlt_some, jgt_some, min_def]
  have h2 : Ind.sarNext sarH sarL (1/50) (1/5) ⟨true, some 12, some 9, 1/25⟩ 2
      = ⟨true, some 13, some 9, 3/50⟩ := by
    norm_num [Ind.sarNext, Ind.sarReversal, Ind.sarComputed, sarH, sarL, jget,
      jadd_some, jsub_some, jmul_some, jmin_some, jmax_some, jlt_some, jgt_some, min_def]
  have h3 : Ind.sarNext sarH sarL (1/50) (1/5) ⟨true, some 13, some 9, 3/50⟩ 3
      = ⟨false, some 4, some 6, 1/50⟩ := by
    norm_num [Ind.sarNext, Ind.sarReversal, Ind.sarComputed, sarH, sarL, jget,
      jadd_some, jsub_some, jmul_some, jmin_some, jmax_some, jlt_some, jgt_some, min_def]
  rw [Ind.sarStates, hr, h0, List.scanl_cons, h1, List.scanl_cons, h2, List.scanl_cons,
    h3, List.scanl_nil]
  simp

/-- C4 counterexample: at the four-bar input above, a reversal triggers at
step 3 while the state's extreme point is 13 (the prior extreme), yet the
reset SAR is 6 — the current bar's high — not 13: the claim "SAR resets to
the prior extreme point" is false on the code. -/
theorem c4_sar_reversal_counterexample :
    Ind.sarStates sarH sarL sarC (1/50) (1/5)
      = [⟨true, some 11, some 9, 1/50⟩, ⟨true, some 12, some 9, 1/25⟩,
         ⟨true, some 13, some 9, 3/50⟩, ⟨false, some 4, some 6, 1/50⟩]
    ∧ Ind.sarReversal sarH sarL ⟨true, some 13, some 9, 3/50⟩ 3 = true
    ∧ ((⟨false, some 4, some 6, 1/50⟩ : Ind.SarState).sar
        ≠ (⟨true, some 13, some 9, 3/50⟩ : Ind.SarState).ep) := by
  refine ⟨sar_trace_crash, ?_, ?_⟩
  · norm_num [Ind.sarReversal, Ind.sarComputed, sarH, sarL, jget, jadd_some, jsub_some,
      jmul_some, jmin_some, jmax_some, jlt_some, jgt_some, min_def]
  · norm_num

/-- C4 (amended, proved): whenever the reversal test fires at a step of the
`calculateParabolicSAR` scan, the next state flips the trend, sets the
extreme point to the current bar's high (new uptrend) or low (new
downtrend), sets the SAR to the current bar's LOW (new uptrend) or HIGH
(new downtrend) — not to the prior extreme point — and resets the
acceleration factor to its initial value. -/
theorem c4_sar_reversal_resets (highs lows : List JNum) (iAF mAF : ℚ)
    (s : Ind.SarState) (i : ℕ) (h : Ind.sarReversal highs lows s i = true) :
    Ind.sarNext highs lows iAF mAF s i
      = ⟨!s.isUptrend,
         if !s.isUptrend then jget highs i else jget lows i,
         if !s.isUptrend then jget lows i else jget highs i, iAF⟩ := by
  simp only [Ind.sarNext, h, if_true]

/-- Witness for C4's amended theorem at the reachable reversal state. -/
theorem c4_sar_reversal_resets_witness :
    Ind.sarReversal sarH sarL ⟨true, some 13, some 9, 3/50⟩ 3 = true
    ∧ Ind.sarNext sarH sarL (1/50) (1/5) ⟨true, some 13, some 9, 3/50⟩ 3
      = ⟨false, jget sarL 3, jget sarH 3, 1/50⟩ := by
  have hrev : Ind.sarReversal sarH sarL ⟨true, some 13, some 9, 3/50⟩ 3 = true := by
    norm_num [Ind.sarReversal, Ind.sarComputed, sarH, sarL, jget, jadd_some, jsub_some,
      jmul_some, jmin_some, jmax_some, jlt_some, jgt_some, min_def]
  exact ⟨hrev, c4_sar_reversal_resets sarH sarL (1/50) (1/5) _ 3 hrev⟩

/-- C10 counterexample: with `initialAF = -1 ≤ 0 = maxAF` (satisfying the
claim's assumption `initialAF ≤ maxAF`), an extreme-point extension drives
the acceleration factor to `-2 < initialAF`, so the claimed range invariant
fails as stated. -/
theorem c10_af_counterexample :
    (-1 : ℚ) ≤ 0
    ∧ ¬ (∀ s ∈ Ind.sarStates sarH2 sarL2 sarC2 (-1) 0, (-1 : ℚ) ≤ s.af ∧ s.af ≤ 0) := by
  have hr : (List.range sarC2.length).drop 1 = [1] := rfl
  have h0 : Ind.sarInit sarH2 sarL2 sarC2 (-1) = ⟨true, some 11, some 9, -1⟩ := by
    norm_num [Ind.sarInit, sarH2, sarL2, sarC2, jget, jgt_some, jlt_some]
  have h1 : Ind.sarNext sarH2 sarL2 (-1) 0 ⟨true, some 11, some 9, -1⟩ 1
      = ⟨true, some 12, some 7, -2⟩ := by
    norm_num [Ind.sarNext, Ind.sarReversal, Ind.sarComputed, sarH2, sarL2, jget,
      jadd_some, jsub_some, jmul_some, jmin_some, jmax_some, jlt_some, jgt_some, min_def]
  have htrace : Ind.sarStates sarH2 sarL2 sarC2 (-1) 0
      = [⟨true, some 11, some 9, -1⟩, ⟨true, some 12, some 7, -2⟩] := by
    rw [Ind.sarStates, hr, h0, List.scanl_cons, h1, List.scanl_nil]
    simp
  refine ⟨by norm_num, fun hall => ?_⟩
  have hmem : (⟨true, some 12, some 7, -2⟩ : Ind.SarState)
      ∈ Ind.sarStates sarH2 sarL2 sarC2 (-1) 0 := by
    rw [htrace]
    simp
  have hle := (hall _ hmem).1
  norm_num at hle

/-- C10 (amended, proved): assuming `0 ≤ initialAF ≤ maxAF`, every state of
the `calculateParabolicSAR` scan keeps the acceleration factor in
`[initialAF, maxAF]`: it starts at `initialAF`, only ever grows by
`initialAF` capped at `maxAF` on an extreme-point extension, and resets to
`initialAF` on a reversal. -/
theorem c10_af_invariant (highs lows closes : List JNum) (iAF mAF : ℚ)
    (h0 : 0 ≤ iAF) (h1 : iAF ≤ mAF) :
    ∀ s ∈ Ind.sarStates highs lows closes iAF mAF, iAF ≤ s.af ∧ s.af ≤ mAF := by
  have hstep : ∀ (s : Ind.SarState) (i : ℕ), iAF ≤ s.af ∧ s.af ≤ mAF →
      iAF ≤ (Ind.sarNext highs lows iAF mAF s i).af
      ∧ (Ind.sarNext highs lows iAF mAF s i).af ≤ mAF := by
    intro s i hs
    rcases sarNext_af highs lows iAF mAF s i with h | h | h <;> rw [h]
    · exact ⟨le_refl iAF, h1⟩
    · exact ⟨le_min (by linarith [hs.1]) h1, min_le_right _ _⟩
    · exact hs
  intro s hs
  exact scanl_invariant _ (fun t => iAF ≤ t.af ∧ t.af ≤ mAF)
    (fun a b ha => hstep a b ha) _ _ ⟨le_refl iAF, h1⟩ s hs

/-- Witness for C10's amended theorem at the default parameters, on a
reachable state of the two-bar rising input. -/
theorem c10_af_invariant_witness :
    (0 : ℚ) ≤ 1/50 ∧ (1/50 : ℚ) ≤ 1/5
    ∧ (1/50 ≤ (⟨true, some 12, some 9, 1/25⟩ : Ind.SarState).af
        ∧ (⟨true, some 12, some 9, 1/25⟩ : Ind.SarState).af ≤ 1/5) := by
  have h0 : Ind.sarInit sarH2 sarL2 sarC2 (1/50) = ⟨true, some 11, some 9, 1/50⟩ := by
    norm_num [Ind.sarInit, sarH2, sarL2, sarC2, jget, jgt_some, jlt_some]
  have h1 : Ind.sarNext sarH2 sarL2 (1/50) (1/5) ⟨true, some 11, some 9, 1/50⟩ 1
      = ⟨true, some 12, some 9, 1/25⟩ := by
    norm_num [Ind.sarNext, Ind.sarReversal, Ind.sarComputed, sarH2, sarL2, jget,
      jadd_some, jsub_some, jmul_some, jmin_some, jmax_some, jlt_some, jgt_some, min_def]
  have hr : (List.range sarC2.length).drop 1 = [1] := rfl
  have hmem : (⟨true, some 12, some 9, 1/25⟩ : Ind.SarState)
      ∈ Ind.sarStates sarH2 sarL2 sarC2 (1/50) (1/5) := by
    rw [Ind.sarStates, hr, h0, List.scanl_cons, h1, List.scanl_nil]
    simp
  exact ⟨by norm_num, by norm_num,
    c10_af_invariant sarH2 sarL2 sarC2 (1/50) (1/5) (by norm_num) (by norm_num) _ hmem⟩

end StockTracker
